import Mathlib

/-!
# DaktLib-Decrypt: chunk data model, host result codes, chunk decode pipeline

Shallow embedding of
* `include/dakt/decrypt/chunk/Chunk.hpp` (`ChunkHeader`, `ChunkInfo`, `ChunkDecodePlan`),
* `include/dakt/decrypt/api/c_api.h` (`enum DaktDecryptResult`),

followed by the header parser and the session state machine, which the repository
does not define and which are modelled from the specification.
-/

namespace dakt.decrypt

/-! ## Chunk.hpp -/

/-- The values of `std::uint32_t`: the naturals below `2^32`. -/
abbrev uint32_t : Type := Fin (2 ^ 32)

/-- `struct ChunkHeader { std::uint32_t type{}; std::uint32_t size{}; };`
The default member initialisers `{}` value-initialise both fields to zero. -/
structure ChunkHeader where
  type : uint32_t := 0
  size : uint32_t := 0
deriving DecidableEq, Repr

/-- `struct ChunkInfo { ChunkHeader header{}; };` -/
structure ChunkInfo where
  header : ChunkHeader := {}
deriving DecidableEq, Repr

/-- `struct ChunkDecodePlan { };` : the source declares no member, only the comment
"Placeholder for chosen crypto/compression/hash identifiers." -/
structure ChunkDecodePlan where
deriving DecidableEq, Repr

/-! ## c_api.h -/

/-- The enumerators of `enum DaktDecryptResult`, in declaration order. -/
inductive DaktDecryptResult where
  | DAKT_DECRYPT_OK
  | DAKT_DECRYPT_ERR_IO
  | DAKT_DECRYPT_ERR_UNRECOGNIZED
  | DAKT_DECRYPT_ERR_DECRYPT
  | DAKT_DECRYPT_ERR_DECOMPRESS
deriving DecidableEq, Repr

namespace DaktDecryptResult

/-- All enumerators, in declaration order. -/
def enumerators : List DaktDecryptResult :=
  [DAKT_DECRYPT_OK, DAKT_DECRYPT_ERR_IO, DAKT_DECRYPT_ERR_UNRECOGNIZED,
   DAKT_DECRYPT_ERR_DECRYPT, DAKT_DECRYPT_ERR_DECOMPRESS]

/-- The explicit initialiser written next to an enumerator, if any: only
`DAKT_DECRYPT_OK = 0` has one. -/
def initialiser : DaktDecryptResult → Option Int
  | DAKT_DECRYPT_OK => some 0
  | DAKT_DECRYPT_ERR_IO => none
  | DAKT_DECRYPT_ERR_UNRECOGNIZED => none
  | DAKT_DECRYPT_ERR_DECRYPT => none
  | DAKT_DECRYPT_ERR_DECOMPRESS => none

/-- Position of an enumerator in the declaration. -/
def position : DaktDecryptResult → Nat
  | DAKT_DECRYPT_OK => 0
  | DAKT_DECRYPT_ERR_IO => 1
  | DAKT_DECRYPT_ERR_UNRECOGNIZED => 2
  | DAKT_DECRYPT_ERR_DECRYPT => 3
  | DAKT_DECRYPT_ERR_DECOMPRESS => 4

/-- The C rule for enumerator values: an enumerator with an initialiser takes that
value, one without takes the previous enumerator's value plus one (`next`), the
first one defaulting to zero. -/
def assignValues : Int → List (Option Int) → List Int
  | _, [] => []
  | _, some v :: rest => v :: assignValues (v + 1) rest
  | next, none :: rest => next :: assignValues (next + 1) rest

/-- The integer value of an enumerator of `enum DaktDecryptResult`. -/
def value (r : DaktDecryptResult) : Int :=
  (assignValues 0 (enumerators.map initialiser)).getD (position r) 0

end DaktDecryptResult

/-! ## Components the repository declares no code for

The headers above are the whole of the repository's code: `ChunkHeaderParser`,
`DecodePlanResolver`, `ChunkTransformer`, `DecryptContext` (only the opaque handle
`struct DaktDecryptContext *` is declared) and `DecryptReport` have no definition.
They are modelled below from sections 3, 4, 6 and 7 of the specification, over the
data types of `Chunk.hpp`. -/

/-- One octet of the source stream. -/
abbrev byte : Type := Fin 256

/-- Modelled from the spec: the error taxonomy of section 7 (structural,
resolution-level, transform-level and session-usage kinds); the repository
declares no such type. -/
inductive ErrorKind where
  | MalformedHeader
  | InvalidSize
  | UnrecognizedType
  | UnsupportedAlgorithm
  | DecryptFailure
  | DecompressFailure
  | OutputTooLarge
  | IntegrityMismatch
  | InvalidConfiguration
  | SessionClosed
deriving DecidableEq, Repr

/-- Modelled from the spec: what section 4.2 and the open question of section 9 leave
to the format: the fixed header size, the layout by which the header bytes give
`type` and `size`, whether the format version allows zero-length chunks, and the
largest addressable offset (`SIZE_MAX` of the platform). -/
structure HeaderFormat where
  header_size : Nat
  decode : List byte → ChunkHeader
  zero_length_allowed : Bool
  size_max : Nat

/-- Modelled from the spec: the "parsed, validated view of one chunk" that
`ChunkHeaderParser.parse` returns. Section 3 puts the derived payload offsets inside
`ChunkInfo`; the `ChunkInfo` of `Chunk.hpp` has the header only, so the offsets are
carried next to it. -/
structure ParsedChunk where
  info : ChunkInfo
  payload_start : Nat
  payload_end : Nat
deriving DecidableEq, Repr

namespace ChunkHeaderParser

/-- The header bytes at `offset`: the `header_size` bytes starting there. -/
def headerBytes (fmt : HeaderFormat) (bytes : List byte) (offset : Nat) : List byte :=
  (bytes.drop offset).take fmt.header_size

/-- The `size` field declared by the header at `offset`. -/
def declaredSize (fmt : HeaderFormat) (bytes : List byte) (offset : Nat) : Nat :=
  (fmt.decode (headerBytes fmt bytes offset)).size.val

/-- Modelled from the spec: `ChunkHeaderParser.parse(bytes, offset) ->
(ChunkInfo, bytes_consumed) | Error` of section 4.2, absent from the repository.
* `MalformedHeader` if fewer bytes remain than the fixed header size;
* `InvalidSize` if the declared `size` is zero when zero-length chunks are
  disallowed, or if `offset + header_size + size` overflows the addressable range
  or exceeds the total stream length;
* otherwise the chunk with payload range `[offset+header_size, offset+header_size+size)`.
`bytes_consumed` is the header plus the declared payload (section 5: "each chunk's
offset depends on the previous chunk's declared size"). -/
def parse (fmt : HeaderFormat) (bytes : List byte) (offset : Nat) :
    Except ErrorKind (ParsedChunk × Nat) :=
  if bytes.length < offset + fmt.header_size then
    .error .MalformedHeader
  else
    let header := fmt.decode (headerBytes fmt bytes offset)
    let payload_start := offset + fmt.header_size
    let payload_end := payload_start + header.size.val
    if header.size.val = 0 ∧ fmt.zero_length_allowed = false then
      .error .InvalidSize
    else if fmt.size_max < payload_end then
      .error .InvalidSize
    else if bytes.length < payload_end then
      .error .InvalidSize
    else
      .ok ({ info := { header := header }, payload_start := payload_start,
             payload_end := payload_end }, fmt.header_size + header.size.val)

end ChunkHeaderParser

/-! ### Session: registry, report, context -/

/-- Modelled from the spec: the three algorithm kinds of section 4.1. -/
inductive AlgorithmKind where
  | cipher
  | compressor
  | hash
deriving DecidableEq, Repr

/-- Modelled from the spec: the registration table of `AlgorithmRegistry` (section
4.1), as the list of registered `(kind, id)` keys; the implementations behind the
keys are external collaborators. -/
structure AlgorithmRegistry where
  entries : List (AlgorithmKind × Nat) := []
deriving DecidableEq, Repr

/-- Modelled from the spec: one per-chunk outcome of `DecryptReport` (section 3):
chunk index, byte range, and the failure kind if the chunk failed (`none` on
success). -/
structure ChunkOutcome where
  index : Nat
  range_start : Nat
  range_end : Nat
  failure : Option ErrorKind
deriving DecidableEq, Repr

/-- Modelled from the spec: `DecryptReport` (section 3): the ordered per-chunk
outcomes, the aggregate counters, and the terminal stream-level error that section
4.5 records when the framing breaks. -/
structure DecryptReport where
  outcomes : List ChunkOutcome := []
  chunks_processed : Nat := 0
  chunks_failed : Nat := 0
  total_plaintext_bytes : Nat := 0
  stream_error : Option ErrorKind := none
deriving DecidableEq, Repr

/-- Modelled from the spec: the caller-supplied configuration validated by `open`
(sections 4.5 and 6): key material, registry, decompression ceiling. -/
structure SessionConfig where
  key_material : List byte
  registry : AlgorithmRegistry
  decompression_ceiling : Option Nat
deriving DecidableEq, Repr

/-- Modelled from the spec: the two session states of section 4.5. -/
inductive SessionState where
  | Open
  | Closed
deriving DecidableEq, Repr

/-- Modelled from the spec: `DecryptContext` (section 3): the key material, the
current stream cursor, the in-progress report, with the configuration and the
source stream of the session. -/
structure DecryptContext where
  state : SessionState
  config : SessionConfig
  key_material : List byte
  source : List byte
  cursor : Nat
  report : DecryptReport
deriving DecidableEq, Repr

/-- Modelled from the spec: the outcome of one step at the host boundary (section
6). -/
inductive StepOutcome where
  | ChunkOk (index : Nat) (plaintextLength : Nat)
  | ChunkFailed (index : Nat) (kind : ErrorKind)
  | StreamExhausted
  | StreamCorrupted (kind : ErrorKind)
deriving DecidableEq, Repr

/-- Modelled from the spec: the components `processNext` calls in turn. The header
format and the two contracts `resolve(chunkInfo, registry)` (section 4.3) and
`apply(plan, payload_bytes, context)` (section 4.4) are parameters: the type
mapping and the cipher, compressor and hash primitives are outside the core. -/
structure Pipeline where
  format : HeaderFormat
  resolve : ChunkInfo → AlgorithmRegistry → Except ErrorKind ChunkDecodePlan
  transform : ChunkDecodePlan → List byte → DecryptContext → Except ErrorKind (List byte)

namespace DecryptReport

/-- Modelled from the spec: appending one per-chunk outcome and updating the
aggregate counters (chunks processed, chunks failed, total plaintext bytes). -/
def record (r : DecryptReport) (o : ChunkOutcome) (plaintextLength : Nat) : DecryptReport :=
  { r with
    outcomes := r.outcomes ++ [o]
    chunks_processed := r.chunks_processed + 1
    chunks_failed := if o.failure.isSome then r.chunks_failed + 1 else r.chunks_failed
    total_plaintext_bytes := r.total_plaintext_bytes + plaintextLength }

end DecryptReport

namespace DecryptContext

/-- Modelled from the spec: `close()` of section 4.5: forces the transition to
`Closed`, discards the key material and freezes the report. -/
def close (c : DecryptContext) : DecryptContext :=
  { c with state := .Closed, key_material := [] }

/-- Modelled from the spec: plan resolution followed by the transform, for the
chunk `pc` (section 2 control flow). The payload is read from the source at the
range the parser validated. -/
def decodeChunk (p : Pipeline) (c : DecryptContext) (pc : ParsedChunk) :
    Except ErrorKind (List byte) :=
  match p.resolve pc.info c.config.registry with
  | .error e => .error e
  | .ok plan =>
    p.transform plan ((c.source.drop pc.payload_start).take (pc.payload_end - pc.payload_start)) c

/-- Modelled from the spec: `processNext()` of section 4.5.
* `Closed`: fails with `SessionClosed`.
* `Open`, cursor at end: the stream is exhausted, the context closes.
* `Open`, structural parse error: the error is recorded as the terminal stream-level
  error and the context closes.
* `Open`, chunk parsed: the cursor advances by `bytes_consumed` and the outcome is
  appended; "chunk-level errors (decrypt/decompress/integrity) do not terminate the
  stream".
The configuration is that of `open(config)`; the stop-on-first-error configuration
that sections 4.4 and 7 mention is not an option of `open` (4.5) or of the host
boundary (6), and its effect on the session is not specified, so it has no part
here. -/
def processNext (p : Pipeline) (c : DecryptContext) :
    Except ErrorKind StepOutcome × DecryptContext :=
  match c.state with
  | .Closed => (.error .SessionClosed, c)
  | .Open =>
    if c.cursor = c.source.length then
      (.ok .StreamExhausted, c.close)
    else
      match ChunkHeaderParser.parse p.format c.source c.cursor with
      | .error e =>
        (.ok (.StreamCorrupted e),
          { c with report := { c.report with stream_error := some e } }.close)
      | .ok (pc, bytes_consumed) =>
        let index := c.report.chunks_processed
        match decodeChunk p c pc with
        | .ok plaintext =>
          (.ok (.ChunkOk index plaintext.length),
            { c with
              cursor := c.cursor + bytes_consumed
              report := c.report.record
                { index := index, range_start := pc.payload_start,
                  range_end := pc.payload_end, failure := none } plaintext.length })
        | .error e =>
          (.ok (.ChunkFailed index e),
            { c with
              cursor := c.cursor + bytes_consumed
              report := c.report.record
                { index := index, range_start := pc.payload_start,
                  range_end := pc.payload_end, failure := some e } 0 })

/-- The operations a caller may invoke on a context. -/
inductive Operation where
  | processNext
  | close
deriving DecidableEq, Repr

/-- The context after one operation. -/
def perform (p : Pipeline) (c : DecryptContext) : Operation → DecryptContext
  | .processNext => (processNext p c).2
  | .close => c.close

/-- The context after a sequence of operations, in order. -/
def performAll (p : Pipeline) (c : DecryptContext) (ops : List Operation) : DecryptContext :=
  ops.foldl (perform p) c

end DecryptContext

/-! ### A concrete header layout, for the instances -/

/-- Four bytes, least significant first, as a `std::uint32_t`. -/
def le32 (b0 b1 b2 b3 : byte) : uint32_t :=
  ⟨(b0.val + 256 * b1.val + 65536 * b2.val + 16777216 * b3.val) % 2 ^ 32,
    Nat.mod_lt _ (by decide)⟩

/-- An eight-byte little-endian layout: `type` in bytes 0..3, `size` in bytes 4..7. -/
def decodeLE : List byte → ChunkHeader
  | [t0, t1, t2, t3, s0, s1, s2, s3] => { type := le32 t0 t1 t2 t3, size := le32 s0 s1 s2 s3 }
  | _ => {}

/-- The eight-byte little-endian format on a 64-bit platform, zero-length chunks
allowed. -/
def formatLE : HeaderFormat :=
  { header_size := 8, decode := decodeLE, zero_length_allowed := true,
    size_max := 2 ^ 64 - 1 }

/-- A header declaring three payload bytes, followed by the three bytes. -/
def streamOneChunk : List byte := [7, 0, 0, 0, 3, 0, 0, 0, 10, 11, 12]

/-- A header declaring five payload bytes, followed by only two. -/
def streamTruncated : List byte := [7, 0, 0, 0, 5, 0, 0, 0, 10, 11]

/-- A resolver that knows a single plan shape for every type, and a transformer that
returns the payload unchanged. -/
def pipelineIdentity : Pipeline :=
  { format := formatLE
    resolve := fun _ _ => .ok {}
    transform := fun _ payload _ => .ok payload }

/-- A valid configuration: key material, one registered cipher, a ceiling. -/
def configValid : SessionConfig :=
  { key_material := [1], registry := { entries := [(.cipher, 0)] },
    decompression_ceiling := some 1024 }

/-- Two well-framed chunks of one payload byte each: eighteen bytes. -/
def streamTwoChunks : List byte :=
  [7, 0, 0, 0, 1, 0, 0, 0, 42, 7, 0, 0, 0, 1, 0, 0, 0, 43]

/-- The context `open` gives for `configValid` and `streamTwoChunks`. -/
def contextTwoChunks : DecryptContext :=
  { state := .Open, config := configValid, key_material := [1],
    source := streamTwoChunks, cursor := 0, report := {} }

/-- A context closed by the caller right after `open`. -/
def contextClosed : DecryptContext := contextTwoChunks.close

/-! ## Theorems: the data model of `Chunk.hpp` and the result codes of `c_api.h` -/

open DaktDecryptResult in
/-- C5: the result codes of `enum DaktDecryptResult` are exactly five enumerators,
in the order OK, I/O error, unrecognized format, decryption error, decompression
error, with the pairwise distinct values 0, 1, 2, 3, 4; a code is OK iff its value
is 0. -/
theorem result_codes_closed_set :
    enumerators.map value = [0, 1, 2, 3, 4] ∧
    enumerators.length = 5 ∧ enumerators.Nodup ∧
    (∀ r : DaktDecryptResult, r ∈ enumerators) ∧
    value DAKT_DECRYPT_OK = 0 ∧ value DAKT_DECRYPT_ERR_IO = 1 ∧
    value DAKT_DECRYPT_ERR_UNRECOGNIZED = 2 ∧ value DAKT_DECRYPT_ERR_DECRYPT = 3 ∧
    value DAKT_DECRYPT_ERR_DECOMPRESS = 4 ∧
    Function.Injective value ∧
    (∀ r : DaktDecryptResult, value r = 0 ↔ r = DAKT_DECRYPT_OK) := by
  refine ⟨by decide, by decide, by decide, ?_, by decide, by decide, by decide, by decide,
    by decide, ?_, ?_⟩
  · intro r; cases r <;> decide
  · intro a b h; cases a <;> cases b <;> first | rfl | (exact absurd h (by decide))
  · intro r; cases r <;> decide

/-- C8: a `ChunkHeader` is exactly a pair of unsigned 32-bit fields `type` and
`size`: both lie in `[0, 2^32)`, two headers are equal iff both fields are equal,
and every pair of 32-bit values is the `(type, size)` of exactly one header. -/
theorem chunkHeader_two_uint32_fields :
    (∀ h : ChunkHeader, 0 ≤ h.type.val ∧ h.type.val < 2 ^ 32 ∧
      0 ≤ h.size.val ∧ h.size.val < 2 ^ 32) ∧
    (∀ h₁ h₂ : ChunkHeader, h₁ = h₂ ↔ h₁.type = h₂.type ∧ h₁.size = h₂.size) ∧
    Function.Bijective (fun h : ChunkHeader => (h.type, h.size)) := by
  refine ⟨fun h => ⟨Nat.zero_le _, h.type.isLt, Nat.zero_le _, h.size.isLt⟩, ?_, ?_, ?_⟩
  · intro h₁ h₂
    constructor
    · rintro rfl; exact ⟨rfl, rfl⟩
    · rintro ⟨ht, hs⟩
      cases h₁; cases h₂; simp_all
  · intro h₁ h₂ h
    cases h₁; cases h₂; simp_all
  · rintro ⟨t, s⟩
    exact ⟨{ type := t, size := s }, rfl⟩

/-- C9: a default-constructed `ChunkHeader` has `type = 0` and `size = 0`, and
a default-constructed `ChunkInfo` holds exactly that header. -/
theorem default_constructed_zero :
    ({} : ChunkHeader).type = 0 ∧ ({} : ChunkHeader).size = 0 ∧
    ({} : ChunkInfo).header = ({} : ChunkHeader) ∧
    ({} : ChunkInfo).header.type = 0 ∧ ({} : ChunkInfo).header.size = 0 ∧
    ({} : ChunkHeader).type.val = 0 ∧ ({} : ChunkHeader).size.val = 0 :=
  ⟨rfl, rfl, rfl, rfl, rfl, rfl, rfl⟩

/-- C6 (as stated, refuted): no accessor reads a payload start off `ChunkInfo`
values such that the chunk with header `(7, 3)` whose payload starts at 8 and the
chunk with the same header whose payload starts at 16 are both represented. -/
theorem chunkInfo_carries_no_offsets :
    ¬ ∃ (payload_start : ChunkInfo → Nat) (a b : ChunkInfo),
        a.header = { type := 7, size := 3 } ∧ b.header = { type := 7, size := 3 } ∧
        payload_start a = 8 ∧ payload_start b = 16 := by
  rintro ⟨f, ⟨ha⟩, ⟨hb⟩, h₁, h₂, h₃, h₄⟩
  simp only at h₁ h₂
  subst h₁ h₂
  omega

/-- C6 (amended): a `ChunkInfo` value carries the chunk's header and nothing else:
it is rebuilt from its header, two values with the same header are equal, and every
header is the header of some `ChunkInfo`. -/
theorem chunkInfo_is_its_header :
    (∀ ci : ChunkInfo, ci = { header := ci.header }) ∧
    (∀ a b : ChunkInfo, a = b ↔ a.header = b.header) ∧
    Function.Bijective ChunkInfo.header := by
  refine ⟨fun ci => rfl, ?_, ?_, ?_⟩
  · intro a b
    constructor
    · rintro rfl; rfl
    · intro h; cases a; cases b; simp_all
  · intro a b h; cases a; cases b; simp_all
  · intro h; exact ⟨{ header := h }, rfl⟩

/-- C7 (as stated, refuted): no accessor reads algorithm ids off `ChunkDecodePlan`
values such that one plan selects cipher 1 and another selects cipher 2. -/
theorem decodePlan_carries_no_ids :
    ¬ ∃ (ids : ChunkDecodePlan → Nat × Nat × Nat) (a b : ChunkDecodePlan),
        ids a = (1, 0, 0) ∧ ids b = (2, 0, 0) := by
  rintro ⟨ids, ⟨⟩, ⟨⟩, h₁, h₂⟩
  rw [h₁] at h₂
  exact absurd h₂ (by decide)

/-- C7 (amended): `ChunkDecodePlan` is an empty placeholder: it has a single value,
so any two plans are equal and no function of a plan tells two plans apart. -/
theorem decodePlan_single_value :
    (∀ a b : ChunkDecodePlan, a = b) ∧
    (∀ (α : Type) (f : ChunkDecodePlan → α) (a b : ChunkDecodePlan), f a = f b) := by
  refine ⟨?_, ?_⟩
  · rintro ⟨⟩ ⟨⟩; rfl
  · rintro α f ⟨⟩ ⟨⟩; rfl

/-! ## Theorems: the header parser -/

namespace ChunkHeaderParser

/-- What a successful parse returns. -/
lemma parse_ok_spec {fmt : HeaderFormat} {bytes : List byte} {offset : Nat}
    {pc : ParsedChunk} {n : Nat} (h : parse fmt bytes offset = .ok (pc, n)) :
    pc.info.header = fmt.decode (headerBytes fmt bytes offset) ∧
    pc.payload_start = offset + fmt.header_size ∧
    pc.payload_end = offset + fmt.header_size + pc.info.header.size.val ∧
    n = fmt.header_size + pc.info.header.size.val ∧
    pc.payload_end ≤ bytes.length ∧ pc.payload_end ≤ fmt.size_max := by
  unfold parse at h
  dsimp only at h
  split_ifs at h with h₁ h₂ h₃ h₄
  simp only [Except.ok.injEq, Prod.mk.injEq] at h
  obtain ⟨rfl, rfl⟩ := h
  refine ⟨rfl, rfl, rfl, rfl, ?_, ?_⟩ <;> dsimp only <;> omega

/-- With a full header present, an oversized declared size is `InvalidSize`. -/
lemma parse_invalid_size {fmt : HeaderFormat} {bytes : List byte} {offset : Nat}
    (hfull : offset + fmt.header_size ≤ bytes.length)
    (hbad : fmt.size_max < offset + fmt.header_size + declaredSize fmt bytes offset ∨
      bytes.length < offset + fmt.header_size + declaredSize fmt bytes offset) :
    parse fmt bytes offset = .error .InvalidSize := by
  unfold parse
  unfold declaredSize at hbad
  dsimp only
  split_ifs with h₁ h₂ h₃ h₄
  · omega
  · rfl
  · rfl
  · rfl
  · omega

end ChunkHeaderParser

open ChunkHeaderParser in
/-- C1: at an offset where a full header remains, `parse` fails with `InvalidSize`
whenever `offset + header_size + size` overflows the addressable range or exceeds
the stream length; and a successful parse never has a truncated payload range: the
range has exactly `size` bytes and ends inside the stream. -/
theorem parse_oversized_is_invalid_size (fmt : HeaderFormat) (bytes : List byte)
    (offset : Nat) (hfull : offset + fmt.header_size ≤ bytes.length) :
    ((fmt.size_max < offset + fmt.header_size + declaredSize fmt bytes offset ∨
        bytes.length < offset + fmt.header_size + declaredSize fmt bytes offset) →
      parse fmt bytes offset = .error .InvalidSize) ∧
    (∀ (pc : ParsedChunk) (n : Nat), parse fmt bytes offset = .ok (pc, n) →
      pc.payload_end - pc.payload_start = declaredSize fmt bytes offset ∧
      pc.payload_end ≤ bytes.length ∧ pc.payload_end ≤ fmt.size_max) := by
  refine ⟨parse_invalid_size hfull, ?_⟩
  intro pc n h
  obtain ⟨hh, hs, he, -, hlen, hmax⟩ := parse_ok_spec h
  refine ⟨?_, hlen, hmax⟩
  unfold declaredSize
  rw [← hh]
  omega

open ChunkHeaderParser in
/-- C1, instance: a header declaring five payload bytes with two bytes left. -/
theorem parse_oversized_is_invalid_size_witness :
    0 + formatLE.header_size ≤ streamTruncated.length ∧
    parse formatLE streamTruncated 0 = .error .InvalidSize :=
  ⟨by decide,
    (parse_oversized_is_invalid_size formatLE streamTruncated 0 (by decide)).1
      (Or.inr (by decide))⟩

open ChunkHeaderParser in
/-- C2 (as stated, refuted): in the two-chunk stream `parse` succeeds at offsets 0
and 9 and returns the same `ChunkInfo` (header `(7, 1)`) with the payload ranges
`[8, 9)` and `[17, 18)`; so no payload range read off the returned `ChunkInfo` is
`[offset+header_size, offset+header_size+size)` at every successful parse. -/
theorem parse_chunkInfo_has_no_range :
    parse formatLE streamTwoChunks 0 =
      .ok ({ info := { header := { type := 7, size := 1 } }, payload_start := 8,
             payload_end := 9 }, 9) ∧
    parse formatLE streamTwoChunks 9 =
      .ok ({ info := { header := { type := 7, size := 1 } }, payload_start := 17,
             payload_end := 18 }, 9) ∧
    ¬ ∃ payload_range : ChunkInfo → Nat × Nat,
        ∀ (offset : Nat) (pc : ParsedChunk) (n : Nat),
          parse formatLE streamTwoChunks offset = .ok (pc, n) →
          payload_range pc.info =
            (offset + formatLE.header_size,
              offset + formatLE.header_size + pc.info.header.size.val) := by
  refine ⟨rfl, rfl, ?_⟩
  rintro ⟨f, hf⟩
  have h₀ : f { header := { type := 7, size := 1 } } = (8, 9) :=
    hf 0 { info := { header := { type := 7, size := 1 } }, payload_start := 8,
           payload_end := 9 } 9 rfl
  have h₉ : f { header := { type := 7, size := 1 } } = (17, 18) :=
    hf 9 { info := { header := { type := 7, size := 1 } }, payload_start := 17,
           payload_end := 18 } 9 rfl
  rw [h₀] at h₉
  exact absurd h₉ (by decide)

open ChunkHeaderParser in
/-- C2 (amended): on success, the returned `ChunkInfo` holds the header read at
`offset`, and the payload range, which `parse` reports next to the `ChunkInfo`, is
exactly `[offset+header_size, offset+header_size+size)` with `size` that header's
size field, and the range lies inside the stream. -/
theorem parse_success_payload_range (fmt : HeaderFormat) (bytes : List byte)
    (offset : Nat) (pc : ParsedChunk) (n : Nat)
    (h : parse fmt bytes offset = .ok (pc, n)) :
    pc.info.header = fmt.decode (headerBytes fmt bytes offset) ∧
    pc.payload_start = offset + fmt.header_size ∧
    pc.payload_end = offset + fmt.header_size + pc.info.header.size.val ∧
    pc.payload_start ≤ pc.payload_end ∧ pc.payload_end ≤ bytes.length := by
  obtain ⟨hh, hs, he, -, hlen, -⟩ := parse_ok_spec h
  exact ⟨hh, hs, he, by omega, hlen⟩

open ChunkHeaderParser in
/-- C2 (amended), instance: the chunk of `streamOneChunk` has payload range `[8, 11)`. -/
theorem parse_success_payload_range_witness :
    parse formatLE streamOneChunk 0 =
      .ok ({ info := { header := { type := 7, size := 3 } }, payload_start := 8,
             payload_end := 11 }, 11) ∧
    (8 : Nat) = 0 + formatLE.header_size ∧ (11 : Nat) = 0 + formatLE.header_size + 3 ∧
    (11 : Nat) ≤ streamOneChunk.length :=
  have h := parse_success_payload_range formatLE streamOneChunk 0
    { info := { header := { type := 7, size := 3 } }, payload_start := 8, payload_end := 11 }
    11 rfl
  ⟨rfl, h.2.1, h.2.2.1, h.2.2.2.2⟩

/-! ## Theorems: the session state machine -/

namespace DecryptContext

/-- On a closed context `processNext` fails and returns the context as it was. -/
lemma processNext_of_closed (p : Pipeline) {c : DecryptContext} (h : c.state = .Closed) :
    processNext p c = (.error .SessionClosed, c) := by
  unfold processNext
  rw [h]

/-- Closing a closed context keeps its state and report. -/
lemma close_state_report (c : DecryptContext) :
    c.close.state = .Closed ∧ c.close.report = c.report := ⟨rfl, rfl⟩

/-- No operation leaves `Closed` or touches the report of a closed context. -/
lemma perform_of_closed (p : Pipeline) {c : DecryptContext} (h : c.state = .Closed)
    (op : Operation) :
    (perform p c op).state = .Closed ∧ (perform p c op).report = c.report := by
  cases op
  · unfold perform
    rw [processNext_of_closed p h]
    exact ⟨h, rfl⟩
  · exact close_state_report c

/-- No sequence of operations leaves `Closed` or touches the report. -/
lemma performAll_of_closed (p : Pipeline) (ops : List Operation) :
    ∀ c : DecryptContext, c.state = .Closed →
      (performAll p c ops).state = .Closed ∧ (performAll p c ops).report = c.report := by
  induction ops with
  | nil => intro c h; exact ⟨h, rfl⟩
  | cons op rest ih =>
    intro c h
    obtain ⟨hs, hr⟩ := perform_of_closed p h op
    have := ih (perform p c op) hs
    simp only [performAll, List.foldl_cons] at this ⊢
    exact ⟨this.1, this.2.trans hr⟩

end DecryptContext

open DecryptContext in
/-- C4: on a `Closed` context `processNext()` fails with `SessionClosed` and leaves
the context, hence its report and state, unchanged; and no sequence of
`processNext()` and `close()` calls leaves `Closed` or changes the report. -/
theorem processNext_on_closed (p : Pipeline) (c : DecryptContext)
    (h : c.state = .Closed) :
    (processNext p c).1 = .error .SessionClosed ∧
    (processNext p c).2 = c ∧
    (processNext p c).2.report = c.report ∧ (processNext p c).2.state = .Closed ∧
    (∀ ops : List Operation,
      (performAll p c ops).state = .Closed ∧ (performAll p c ops).report = c.report) := by
  rw [processNext_of_closed p h]
  exact ⟨rfl, rfl, rfl, h, fun ops => performAll_of_closed p ops c h⟩

open DecryptContext in
/-- C4, instance: a context closed by the caller. -/
theorem processNext_on_closed_witness :
    contextClosed.state = .Closed ∧
    (processNext pipelineIdentity contextClosed).1 = .error .SessionClosed ∧
    (processNext pipelineIdentity contextClosed).2 = contextClosed :=
  have h := processNext_on_closed pipelineIdentity contextClosed rfl
  ⟨rfl, h.1, h.2.1⟩

end dakt.decrypt
